import Mathlib

/-!
# fiber_ldapauth: LDAP authentication middleware

A shallow embedding of `config.go` and `ldapauth.go`.

* Go strings and byte slices are lists of bytes (`GoString`).
* A Go `error` value is a `GoError`; a nil error is `none`.
* A Go call that may panic returns a `Result`.
* The LDAP client (`github.com/go-ldap/ldap/v3`) is a record of operations over an
  explicit connection state; the request context (`*fiber.Ctx`) is a record of what
  the handler reads from it.
* A run of the handler yields the list of calls it made, in order, and its outcome.
-/

namespace FiberLdapauth

/-! ## Go values -/

/-- Go `string` / `[]byte`: a sequence of bytes. -/
abbrev GoString := List UInt8

/-- The bytes (UTF-8) of a literal. -/
def bytes (s : String) : GoString := s.toList.flatMap String.utf8EncodeChar

/-- `*ldap.Error`: the result code and the text its `Error()` method returns. -/
structure LdapError where
  ResultCode : Nat
  text : GoString
  deriving DecidableEq, Repr

/-- `*fiber.Error`. -/
structure FiberError where
  Code : Nat
  Message : GoString
  deriving DecidableEq, Repr

/-- A non-nil Go `error`, by dynamic type. -/
inductive GoError where
  | ldap (e : LdapError)
  | fiber (e : FiberError)
  | other (text : GoString)
  deriving DecidableEq, Repr

/-- `err.Error()`. -/
def GoError.Error : GoError → GoString
  | .ldap e => e.text
  | .fiber e => e.Message
  | .other text => text

/-- `errors.New(text)`. -/
def errorsNew (text : GoString) : GoError := .other text

/-- `fiber.NewError(code, message)`. -/
def fiberNewError (code : Nat) (message : GoString) : FiberError := ⟨code, message⟩

/-- `fiber.ErrInternalServerError`. -/
def ErrInternalServerError : FiberError := fiberNewError 500 (bytes "Internal Server Error")

/-- A run-time panic. -/
inductive Panic where
  | sliceBoundsOutOfRange (low high : Nat)
  | nilDereference
  | value (msg : GoString)
  deriving DecidableEq, Repr

/-- The outcome of a Go call: it returns a value or panics. -/
inductive Result (α : Type) where
  | ret (a : α)
  | panic (p : Panic)
  deriving DecidableEq, Repr

/-! ## Library string functions -/

/-- `strings.Contains(s, substr)`. -/
def stringsContains (s substr : GoString) : Bool :=
  match s with
  | [] => substr.isEmpty
  | b :: rest => substr.isPrefixOf (b :: rest) || stringsContains rest substr

/-- `strings.Split(s, sep)` for a one-byte separator. -/
def stringsSplit (sep : UInt8) : GoString → List GoString
  | [] => [[]]
  | b :: rest =>
    if b = sep then [] :: stringsSplit sep rest
    else
      match stringsSplit sep rest with
      | [] => [[b]]
      | h :: t => (b :: h) :: t

/-- `strings.Replace(s, old, new, -1)` for a non-empty `old`, scanning left to right;
`skip` is the number of bytes of the occurrence just replaced that are still to pass. -/
def stringsReplaceAux (old new : GoString) : Nat → GoString → GoString
  | _, [] => []
  | skip + 1, _ :: rest => stringsReplaceAux old new skip rest
  | 0, b :: rest =>
    if old.isPrefixOf (b :: rest) then
      new ++ stringsReplaceAux old new (old.length - 1) rest
    else b :: stringsReplaceAux old new 0 rest

/-- `strings.Replace(s, old, new, -1)` for a non-empty `old`: every non-overlapping
occurrence of `old`, left to right, becomes `new`. -/
def stringsReplaceAll (s old new : GoString) : GoString :=
  stringsReplaceAux old new 0 s

/-! ## encoding/base64, StdEncoding -/

/-- The alphabet: `encodeStd[n]` for a 6-bit value. -/
def b64Char (n : Nat) : UInt8 :=
  if n < 26 then UInt8.ofNat (65 + n)
  else if n < 52 then UInt8.ofNat (71 + n)
  else if n < 62 then UInt8.ofNat (n - 4)
  else if n = 62 then 43
  else 47

/-- The decode map: the 6-bit value of an alphabet byte, `none` for any other byte. -/
def b64Value (c : UInt8) : Option Nat :=
  let n := c.toNat
  if 65 ≤ n ∧ n ≤ 90 then some (n - 65)
  else if 97 ≤ n ∧ n ≤ 122 then some (n - 71)
  else if 48 ≤ n ∧ n ≤ 57 then some (n + 4)
  else if n = 43 then some 62
  else if n = 47 then some 63
  else none

/-- The padding byte `=`. -/
def b64Pad : UInt8 := 61

/-- `base64.StdEncoding.EncodeToString`. -/
def base64Encode : GoString → GoString
  | a :: b :: c :: rest =>
    let val := a.toNat * 65536 + b.toNat * 256 + c.toNat
    b64Char (val / 262144 % 64) :: b64Char (val / 4096 % 64) :: b64Char (val / 64 % 64)
      :: b64Char (val % 64) :: base64Encode rest
  | [a, b] =>
    let val := a.toNat * 65536 + b.toNat * 256
    [b64Char (val / 262144 % 64), b64Char (val / 4096 % 64), b64Char (val / 64 % 64), b64Pad]
  | [a] =>
    let val := a.toNat * 65536
    [b64Char (val / 262144 % 64), b64Char (val / 4096 % 64), b64Pad, b64Pad]
  | [] => []

/-- The 24-bit value of a quantum of four 6-bit values. -/
def quantumVal (v1 v2 v3 v4 : Nat) : Nat := v1 * 262144 + v2 * 4096 + v3 * 64 + v4

/-- Decoding of the quanta of an input without line breaks: four alphabet bytes give
three bytes; the last quantum may end in `==` (one byte) or `=` (two bytes); anything
else is corrupt input (`none`). -/
def decodeQuanta : GoString → Option GoString
  | [] => some []
  | c1 :: c2 :: c3 :: c4 :: rest =>
    match b64Value c1, b64Value c2 with
    | some v1, some v2 =>
      if c3 = b64Pad then
        if c4 = b64Pad ∧ rest = [] then
          some [UInt8.ofNat (quantumVal v1 v2 0 0 / 65536)]
        else none
      else
        match b64Value c3 with
        | none => none
        | some v3 =>
          if c4 = b64Pad then
            if rest = [] then
              let val := quantumVal v1 v2 v3 0
              some [UInt8.ofNat (val / 65536), UInt8.ofNat (val / 256)]
            else none
          else
            match b64Value c4 with
            | none => none
            | some v4 =>
              let val := quantumVal v1 v2 v3 v4
              match decodeQuanta rest with
              | none => none
              | some out =>
                some (UInt8.ofNat (val / 65536) :: UInt8.ofNat (val / 256) :: UInt8.ofNat val
                  :: out)
    | _, _ => none
  | _ => none

/-- `base64.StdEncoding.DecodeString`: carriage returns and line feeds are ignored,
`none` stands for a `CorruptInputError`. -/
def base64Decode (s : GoString) : Option GoString :=
  decodeQuanta (s.filter fun c => c ≠ 10 ∧ c ≠ 13)

/-! ## The request context -/

/-- What the middleware reads from `*fiber.Ctx`. -/
structure Ctx where
  /-- `c.Query(key)`: the empty string when the key is absent. -/
  Query : GoString → GoString
  /-- `c.Body()`: `none` is a nil slice. -/
  Body : Option GoString
  /-- `c.BodyParser(p)`: an error, or the fields `p.Username` and `p.Password`. -/
  BodyParser : Except GoError (GoString × GoString)
  /-- `c.GetReqHeaders()`. -/
  GetReqHeaders : GoString → Option GoString
  /-- `c.Next()`: the result of the rest of the pipeline. -/
  Next : Option GoError

/-- What a credentials lookup returns: `(username, password, err)`. -/
abbrev Credentials := GoString × GoString × Option GoError

/-- From the `Authorization` header (only Basic), else `missing credentials`. -/
def lookupAuthorization (reqh : GoString → Option GoString) : Result Credentials :=
  let missing : Result Credentials :=
    .ret ([], [], some (errorsNew (bytes "missing credentials")))
  match reqh (bytes "Authorization") with
  | none => missing
  | some auth =>
    if auth ≠ [] then
      match base64Decode auth with
      | none => missing
      | some authDec =>
        if stringsContains authDec (bytes "Basic") then
          if 6 ≤ authDec.length then
            let t := stringsSplit 58 (authDec.drop 6)
            match t with
            | [t0, t1] => .ret (t0, t1, none)
            | _ => missing
          else .panic (.sliceBoundsOutOfRange 6 authDec.length)
        else missing
    else missing

/-- From the request headers named by the two fields, else the `Authorization` header. -/
def lookupHeaders (c : Ctx) (usernameField passwordField : GoString) : Result Credentials :=
  let reqh := c.GetReqHeaders
  match reqh usernameField, reqh passwordField with
  | some username, some password => .ret (username, password, none)
  | _, _ => lookupAuthorization reqh

/-- `defaultCredentialsLookup`: query, then body, then headers, then `Authorization`. -/
def defaultCredentialsLookup (c : Ctx) (usernameField passwordField : GoString) :
    Result Credentials :=
  let username := c.Query usernameField
  let password := c.Query passwordField
  if username ≠ [] ∧ password ≠ [] then .ret (username, password, none)
  else
    match c.Body with
    | some _ =>
      match c.BodyParser with
      | .error err => .ret ([], [], some err)
      | .ok (username, password) =>
        if username ≠ [] ∧ password ≠ [] then .ret (username, password, none)
        else lookupHeaders c usernameField passwordField
    | none => lookupHeaders c usernameField passwordField


/-! ## The LDAP client -/

/-- `*tls.Config`, as far as the middleware is concerned a value handed to `StartTLS`. -/
structure TLSConfig where
  ServerName : GoString
  InsecureSkipVerify : Bool
  deriving DecidableEq, Repr

/-- `ldap.SearchRequest`. -/
structure SearchRequest where
  BaseDN : GoString
  Scope : Nat
  DerefAliases : Nat
  SizeLimit : Nat
  TimeLimit : Nat
  TypesOnly : Bool
  Filter : GoString
  Attributes : Option (List GoString)
  Controls : Option (List GoString)
  deriving DecidableEq, Repr

/-- `ldap.ScopeWholeSubtree`. -/
def ScopeWholeSubtree : Nat := 2

/-- `ldap.NeverDerefAliases`. -/
def NeverDerefAliases : Nat := 0

/-- `ldap.NewSearchRequest`. -/
def NewSearchRequest (baseDN : GoString) (scope derefAliases sizeLimit timeLimit : Nat)
    (typesOnly : Bool) (filter : GoString) (attributes controls : Option (List GoString)) :
    SearchRequest :=
  ⟨baseDN, scope, derefAliases, sizeLimit, timeLimit, typesOnly, filter, attributes, controls⟩

/-- `ldap.Entry`: the middleware reads the distinguished name only. -/
structure Entry where
  DN : GoString
  deriving DecidableEq, Repr

/-- `ldap.SearchResult`. -/
structure SearchResult where
  Entries : List Entry
  deriving DecidableEq, Repr

/-- The LDAP library as the middleware uses it; `σ` is the state of a connection `l`
(and of the directory behind it). Each operation returns its error (`none` is nil) and
the state after it. -/
structure LdapClient (σ : Type) where
  /-- `ldap.DialURL(url)`. -/
  DialURL : GoString → Except GoError σ
  /-- `l.StartTLS(config)`. -/
  StartTLS : σ → TLSConfig → Option GoError × σ
  /-- `l.Bind(username, password)`. -/
  Bind : σ → GoString → GoString → Option GoError × σ
  /-- `l.UnauthenticatedBind(username)`. -/
  UnauthenticatedBind : σ → GoString → Option GoError × σ
  /-- `l.Search(searchRequest)`. -/
  Search : σ → SearchRequest → Except GoError SearchResult × σ
  /-- `ldap.EscapeFilter(filter)`. -/
  EscapeFilter : GoString → GoString

/-! ## Configuration -/

/-- `ErrorHandlerCallback`. -/
abbrev ErrorHandlerCallback := Ctx → GoError → Option GoError

/-- `Config`; a nil function, pointer or slice is `none`. -/
structure Config where
  Next : Option (Ctx → Bool)
  URL : GoString
  BindDN : GoString
  BindCredentials : GoString
  SearchBase : GoString
  SearchFilter : GoString
  SearchAttributes : Option (List GoString)
  TLSConfig : Option TLSConfig
  UsernameField : GoString
  PasswordField : GoString
  CredentialsLookup : Option (Ctx → GoString → GoString → Result Credentials)
  ErrorCallback : Option ErrorHandlerCallback
  SuccessCallback : Option (Ctx → Option GoError)

/-- `defaultSuccessCallback`. -/
def defaultSuccessCallback (c : Ctx) : Option GoError := c.Next

/-- `ConfigDefault`. -/
def ConfigDefault : Config where
  Next := none
  URL := []
  BindDN := []
  BindCredentials := []
  SearchBase := []
  SearchFilter := []
  SearchAttributes := some [bytes "dn", bytes "dc"]
  TLSConfig := none
  UsernameField := bytes "username"
  PasswordField := bytes "password"
  CredentialsLookup := some defaultCredentialsLookup
  ErrorCallback := none
  SuccessCallback := some defaultSuccessCallback

/-- `configDefault(config ...Config)`. -/
def configDefault : List Config → Config
  | [] => ConfigDefault
  | cfg :: _ =>
    let cfg := if cfg.SuccessCallback.isNone then
      { cfg with SuccessCallback := ConfigDefault.SuccessCallback } else cfg
    let cfg := if cfg.SearchAttributes.isNone then
      { cfg with SearchAttributes := ConfigDefault.SearchAttributes } else cfg
    let cfg := if cfg.UsernameField = [] then
      { cfg with UsernameField := ConfigDefault.UsernameField } else cfg
    let cfg := if cfg.PasswordField = [] then
      { cfg with PasswordField := ConfigDefault.PasswordField } else cfg
    let cfg := if cfg.CredentialsLookup.isNone then
      { cfg with CredentialsLookup := ConfigDefault.CredentialsLookup } else cfg
    cfg

/-! ## Error classification -/

/-- `mapLDAPToFiberError`; `resultCodeMap` is `ldap.LDAPResultCodeMap`. -/
def mapLDAPToFiberError (resultCodeMap : Nat → Option GoString) (e : LdapError) : FiberError :=
  match resultCodeMap e.ResultCode with
  | some ldapErrStr =>
    if e.ResultCode ≠ 0 then fiberNewError 401 ldapErrStr else ErrInternalServerError
  | none => ErrInternalServerError

/-- A call the handler makes, as recorded in the trace of a run. -/
inductive Event where
  /-- `cfg.Next(c)`. -/
  | skipPredicate
  /-- `c.Next()` called by the handler itself. -/
  | ctxNext
  | dialURL (url : GoString)
  | startTLS (config : TLSConfig)
  | unauthenticatedBind (username : GoString)
  | bind (username password : GoString)
  | credentialsLookup (usernameField passwordField : GoString)
  | search (req : SearchRequest)
  | errorCallback (err : GoError)
  | successCallback
  | close
  deriving DecidableEq, Repr

/-- `errorHandler`: the calls it makes and the error it returns. The first assignment
replaces `err` by a `*fiber.Error`; the type assertion that follows is on the new value. -/
def errorHandler (resultCodeMap : Nat → Option GoString) (c : Ctx) (err : GoError)
    (cb : Option ErrorHandlerCallback) : List Event × Option GoError :=
  let err : GoError := .fiber (fiberNewError 401 err.Error)
  let err : GoError :=
    match err with
    | .ldap e => .fiber (mapLDAPToFiberError resultCodeMap e)
    | _ => err
  match cb with
  | some cb => ([.errorCallback err], cb c err)
  | none => ([], some err)

/-! ## The handler -/

/-- A run of the handler: the calls made, in order, and the outcome. -/
structure Run where
  trace : List Event
  result : Result (Option GoError)
  deriving DecidableEq, Repr

/-- The run `r` preceded by the calls `evs`. -/
def Run.after (evs : List Event) (r : Run) : Run := ⟨evs ++ r.trace, r.result⟩

/-- `return errorHandler(c, err, cfg.ErrorCallback)`. -/
def returnError (resultCodeMap : Nat → Option GoString) (cfg : Config) (c : Ctx)
    (err : GoError) : Run :=
  let (evs, r) := errorHandler resultCodeMap c err cfg.ErrorCallback
  ⟨evs, .ret r⟩

/-- "Continue stack": the success callback, or a panic when it is nil. -/
def continueStack (cfg : Config) (c : Ctx) : Run :=
  match cfg.SuccessCallback with
  | some successCallback => ⟨[.successCallback], .ret (successCallback c)⟩
  | none => ⟨[], .panic (.value (bytes "SuccessCallback must not be nil"))⟩

/-- The search request for `username`: the filter with every `{{username}}` replaced by
the escaped username, over the whole subtree of the search base. -/
def userSearchRequest {σ : Type} (L : LdapClient σ) (cfg : Config) (username : GoString) :
    SearchRequest :=
  let sf := stringsReplaceAll cfg.SearchFilter (bytes "{{username}}") (L.EscapeFilter username)
  NewSearchRequest cfg.SearchBase ScopeWholeSubtree NeverDerefAliases 0 0 false sf
    cfg.SearchAttributes none

/-- "Search user": the lookup, the search and the bind as the entry found. -/
def searchUser {σ : Type} (L : LdapClient σ) (resultCodeMap : Nat → Option GoString)
    (cfg : Config) (c : Ctx) (l : σ) : Run :=
  if cfg.SearchBase ≠ [] ∨ cfg.SearchFilter ≠ [] then
    match cfg.CredentialsLookup with
    | none => ⟨[], .panic .nilDereference⟩
    | some lookup =>
      Run.after [.credentialsLookup cfg.UsernameField cfg.PasswordField] <|
      match lookup c cfg.UsernameField cfg.PasswordField with
      | .panic p => ⟨[], .panic p⟩
      | .ret (_, _, some err) => returnError resultCodeMap cfg c err
      | .ret (username, password, none) =>
        let sreq := userSearchRequest L cfg username
        Run.after [.search sreq] <|
        match L.Search l sreq with
        | (.error err, _) => returnError resultCodeMap cfg c err
        | (.ok sres, l) =>
          match sres.Entries with
          | [entry] =>
            let userDN := entry.DN
            Run.after [.bind userDN password] <|
            match L.Bind l userDN password with
            | (some err, _) => returnError resultCodeMap cfg c err
            | (none, _) => continueStack cfg c
          | _ =>
            returnError resultCodeMap cfg c
              (errorsNew (bytes "user does not exist or too many entries returned"))
  else continueStack cfg c

/-- "First bind with a read only user": the call made, its error and the state after. -/
def serviceBind {σ : Type} (L : LdapClient σ) (cfg : Config) (l : σ) :
    Event × Option GoError × σ :=
  if cfg.BindCredentials = [] then
    (.unauthenticatedBind cfg.BindDN, L.UnauthenticatedBind l cfg.BindDN)
  else (.bind cfg.BindDN cfg.BindCredentials, L.Bind l cfg.BindDN cfg.BindCredentials)

/-- The handler from the service bind on. -/
def bindAndSearch {σ : Type} (L : LdapClient σ) (resultCodeMap : Nat → Option GoString)
    (cfg : Config) (c : Ctx) (l : σ) : Run :=
  match serviceBind L cfg l with
  | (ev, some err, _) => Run.after [ev] (returnError resultCodeMap cfg c err)
  | (ev, none, l) => Run.after [ev] (searchUser L resultCodeMap cfg c l)

/-- The handler between `defer l.Close()` and the deferred call. -/
def session {σ : Type} (L : LdapClient σ) (resultCodeMap : Nat → Option GoString)
    (cfg : Config) (c : Ctx) (l : σ) : Run :=
  match cfg.TLSConfig with
  | some tlsConfig =>
    Run.after [.startTLS tlsConfig] <|
    match L.StartTLS l tlsConfig with
    | (some err, _) => returnError resultCodeMap cfg c err
    | (none, l) => bindAndSearch L resultCodeMap cfg c l
  | none => bindAndSearch L resultCodeMap cfg c l

/-- The handler from the dial on; the deferred `l.Close()` runs after the body, whether
it returns or panics. -/
def connect {σ : Type} (L : LdapClient σ) (resultCodeMap : Nat → Option GoString)
    (cfg : Config) (c : Ctx) : Run :=
  Run.after [.dialURL cfg.URL] <|
  match L.DialURL cfg.URL with
  | .error err => returnError resultCodeMap cfg c err
  | .ok l =>
    let r := session L resultCodeMap cfg c l
    ⟨r.trace ++ [.close], r.result⟩

/-- The handler `New` returns, for the configuration after `configDefault`. -/
def handler {σ : Type} (L : LdapClient σ) (resultCodeMap : Nat → Option GoString)
    (cfg : Config) (c : Ctx) : Run :=
  match cfg.Next with
  | some next =>
    if next c then ⟨[.skipPredicate, .ctxNext], .ret c.Next⟩
    else Run.after [.skipPredicate] (connect L resultCodeMap cfg c)
  | none => connect L resultCodeMap cfg c

/-- `New(config)`: the handler applied to a request. -/
def New {σ : Type} (L : LdapClient σ) (resultCodeMap : Nat → Option GoString)
    (config : Config) (c : Ctx) : Run :=
  handler L resultCodeMap (configDefault [config]) c

/-! ## Reading a trace -/

/-- The event opens a directory session. -/
def Event.isDial : Event → Bool
  | .dialURL _ => true
  | _ => false

/-- The event is a bind, with or without credentials. -/
def Event.isBind : Event → Bool
  | .bind _ _ => true
  | .unauthenticatedBind _ => true
  | _ => false

/-- The event is a search. -/
def Event.isSearch : Event → Bool
  | .search _ => true
  | _ => false

/-- The event is a call of the credentials lookup. -/
def Event.isCredentialsLookup : Event → Bool
  | .credentialsLookup _ _ => true
  | _ => false

/-- The event is an operation on the directory: dial, StartTLS, bind, search or close. -/
def Event.isDirectoryOp : Event → Bool
  | .dialURL _ => true
  | .startTLS _ => true
  | .unauthenticatedBind _ => true
  | .bind _ _ => true
  | .search _ => true
  | .close => true
  | _ => false

/-- The calls before the dial: the skip predicate, when one is configured. -/
def skipTrace (cfg : Config) : List Event :=
  match cfg.Next with
  | some _ => [.skipPredicate]
  | none => []

/-- The calls between the dial and the service bind: StartTLS, when configured. -/
def tlsTrace (cfg : Config) : List Event :=
  match cfg.TLSConfig with
  | some tlsConfig => [.startTLS tlsConfig]
  | none => []

/-- The connection state at the service bind, `l` being the state after the dial. -/
def stateAtBind {σ : Type} (L : LdapClient σ) (cfg : Config) (l : σ) : σ :=
  match cfg.TLSConfig with
  | some tlsConfig => (L.StartTLS l tlsConfig).2
  | none => l

/-- In the words of the specification, for a client state `l` after the service bind:
no search phase is configured, or the credentials lookup succeeds, the search returns
exactly one entry, and the bind as that entry with the looked-up password succeeds. -/
def userVerified {σ : Type} (L : LdapClient σ) (cfg : Config) (c : Ctx) (l : σ) : Prop :=
  (cfg.SearchBase = [] ∧ cfg.SearchFilter = [])
  ∨ ∃ lookup username password entry l',
      cfg.CredentialsLookup = some lookup
      ∧ lookup c cfg.UsernameField cfg.PasswordField = .ret (username, password, none)
      ∧ L.Search l (userSearchRequest L cfg username) = (.ok ⟨[entry]⟩, l')
      ∧ (L.Bind l' entry.DN password).1 = none

/-- In the words of the specification: the dial succeeds, StartTLS succeeds when a TLS
configuration is set, the service bind succeeds, and the user is verified. -/
def allStepsSucceed {σ : Type} (L : LdapClient σ) (cfg : Config) (c : Ctx) : Prop :=
  ∃ l0, L.DialURL cfg.URL = .ok l0
    ∧ (∀ tlsConfig, cfg.TLSConfig = some tlsConfig → (L.StartTLS l0 tlsConfig).1 = none)
    ∧ (serviceBind L cfg (stateAtBind L cfg l0)).2.1 = none
    ∧ userVerified L cfg c (serviceBind L cfg (stateAtBind L cfg l0)).2.2

/-- The run returns what `errorHandler` returns on some error, without a call of the
success callback. -/
def returnsError (resultCodeMap : Nat → Option GoString) (cfg : Config) (c : Ctx) (r : Run) :
    Prop :=
  (∃ err, r.result = .ret (errorHandler resultCodeMap c err cfg.ErrorCallback).2)
  ∧ Event.successCallback ∉ r.trace

/-- The run returns what the success callback returns, after calling it. -/
def returnsSuccess (cfg : Config) (c : Ctx) (r : Run) : Prop :=
  (∃ successCallback, cfg.SuccessCallback = some successCallback
    ∧ r.result = .ret (successCallback c))
  ∧ Event.successCallback ∈ r.trace

/-! ## A sample directory and sample requests -/

/-- Three entries of `ldap.LDAPResultCodeMap`. -/
def sampleResultCodeMap (code : Nat) : Option GoString :=
  if code = 0 then some (bytes "Success")
  else if code = 32 then some (bytes "No Such Object")
  else if code = 49 then some (bytes "Invalid Credentials")
  else none

/-- The error of a bind with wrong credentials. -/
def invalidCredentials : GoError :=
  .ldap ⟨49, bytes "LDAP Result Code 49 \"Invalid Credentials\": "⟩

/-- A directory with one administrator and one user, `tesla`; the dial always succeeds. -/
def sampleDirectory : LdapClient Unit where
  DialURL := fun _ => .ok ()
  StartTLS := fun _ _ => (none, ())
  Bind := fun _ username password =>
    if (username = bytes "cn=read-only-admin,dc=example,dc=com"
        ∨ username = bytes "uid=tesla,dc=example,dc=com") ∧ password = bytes "password" then
      (none, ())
    else (some invalidCredentials, ())
  UnauthenticatedBind := fun _ _ => (none, ())
  Search := fun _ req =>
    if req.Filter = bytes "(uid=tesla)" then
      (.ok ⟨[⟨bytes "uid=tesla,dc=example,dc=com"⟩]⟩, ())
    else (.ok ⟨[]⟩, ())
  EscapeFilter := fun s => s

/-- A configuration for `sampleDirectory`, every optional field left unset. -/
def sampleConfig : Config where
  Next := none
  URL := bytes "ldap://ldap.forumsys.com:389"
  BindDN := bytes "cn=read-only-admin,dc=example,dc=com"
  BindCredentials := bytes "password"
  SearchBase := bytes "dc=example,dc=com"
  SearchFilter := bytes "(uid={{username}})"
  SearchAttributes := none
  TLSConfig := none
  UsernameField := []
  PasswordField := []
  CredentialsLookup := none
  ErrorCallback := none
  SuccessCallback := none

/-- A request with nothing in it, whose pipeline continues without error. -/
def emptyRequest : Ctx where
  Query := fun _ => []
  Body := none
  BodyParser := .ok ([], [])
  GetReqHeaders := fun _ => none
  Next := none

/-- `GET /testauth?username=tesla&password=password`. -/
def queryRequest : Ctx :=
  { emptyRequest with
    Query := fun key =>
      if key = bytes "username" then bytes "tesla"
      else if key = bytes "password" then bytes "password"
      else [] }

/-- A request whose only header is `Authorization` with the given value. -/
def authorizationRequest (auth : GoString) : Ctx :=
  { emptyRequest with
    GetReqHeaders := fun key => if key = bytes "Authorization" then some auth else none }

/-! ## What `configDefault` keeps -/

theorem configDefault_Next (config : Config) :
    (configDefault [config]).Next = config.Next := by
  simp only [configDefault]; repeat' split
  all_goals rfl

theorem configDefault_URL (config : Config) :
    (configDefault [config]).URL = config.URL := by
  simp only [configDefault]; repeat' split
  all_goals rfl

theorem configDefault_TLSConfig (config : Config) :
    (configDefault [config]).TLSConfig = config.TLSConfig := by
  simp only [configDefault]; repeat' split
  all_goals rfl

theorem configDefault_BindDN (config : Config) :
    (configDefault [config]).BindDN = config.BindDN := by
  simp only [configDefault]; repeat' split
  all_goals rfl

theorem configDefault_BindCredentials (config : Config) :
    (configDefault [config]).BindCredentials = config.BindCredentials := by
  simp only [configDefault]; repeat' split
  all_goals rfl

theorem configDefault_SearchBase (config : Config) :
    (configDefault [config]).SearchBase = config.SearchBase := by
  simp only [configDefault]; repeat' split
  all_goals rfl

theorem configDefault_SearchFilter (config : Config) :
    (configDefault [config]).SearchFilter = config.SearchFilter := by
  simp only [configDefault]; repeat' split
  all_goals rfl

theorem configDefault_ErrorCallback (config : Config) :
    (configDefault [config]).ErrorCallback = config.ErrorCallback := by
  simp only [configDefault]; repeat' split
  all_goals rfl

/-- After `configDefault` the success callback is never nil. -/
theorem configDefault_SuccessCallback (config : Config) :
    (configDefault [config]).SuccessCallback
      = some (config.SuccessCallback.getD defaultSuccessCallback) := by
  cases h : config.SuccessCallback <;>
    (simp only [configDefault, h]; repeat' split) <;> simp_all [ConfigDefault]

/-- After `configDefault` the credentials lookup is never nil. -/
theorem configDefault_CredentialsLookup (config : Config) :
    (configDefault [config]).CredentialsLookup
      = some (config.CredentialsLookup.getD defaultCredentialsLookup) := by
  cases h : config.CredentialsLookup <;>
    (simp only [configDefault, h]; repeat' split) <;> simp_all [ConfigDefault]

/-! ## The error classifier -/

/-- C8: `mapLDAPToFiberError e` is the 401 error with the result code map's text for
`e.ResultCode` exactly when that code is in the map and is not zero, and is
`ErrInternalServerError` (500) in every other case; a result code of zero is never
classified as unauthorized, whether or not the map has a text for it. -/
theorem mapLDAPToFiberError_spec (resultCodeMap : Nat → Option GoString) (e : LdapError) :
    ((∃ text, resultCodeMap e.ResultCode = some text
        ∧ mapLDAPToFiberError resultCodeMap e = fiberNewError 401 text)
      ↔ ((resultCodeMap e.ResultCode).isSome ∧ e.ResultCode ≠ 0))
    ∧ (¬ ((resultCodeMap e.ResultCode).isSome ∧ e.ResultCode ≠ 0)
        → mapLDAPToFiberError resultCodeMap e = ErrInternalServerError)
    ∧ (e.ResultCode = 0
        → mapLDAPToFiberError resultCodeMap e = ErrInternalServerError
          ∧ (mapLDAPToFiberError resultCodeMap e).Code ≠ 401) := by
  unfold mapLDAPToFiberError
  cases h : resultCodeMap e.ResultCode with
  | none => simp [ErrInternalServerError, fiberNewError]
  | some text =>
    by_cases h0 : e.ResultCode = 0
    · simp [h0, ErrInternalServerError, fiberNewError]
    · simp [h0]

/-- At the sample map: code 49 gives 401 "Invalid Credentials", code 0 ("Success") and
the unknown code 7 give 500. -/
theorem mapLDAPToFiberError_spec_witness :
    mapLDAPToFiberError sampleResultCodeMap ⟨49, []⟩
        = fiberNewError 401 (bytes "Invalid Credentials")
      ∧ mapLDAPToFiberError sampleResultCodeMap ⟨0, []⟩ = ErrInternalServerError
      ∧ mapLDAPToFiberError sampleResultCodeMap ⟨7, []⟩ = ErrInternalServerError := by
  have h0 := (mapLDAPToFiberError_spec sampleResultCodeMap ⟨0, []⟩).2.2 rfl
  exact ⟨by decide, h0.1, by decide⟩

/-- C2 (as stated, refuted): the raw error `errors.New("missing credentials")` carries
no directory result code, and `errorHandler` without a callback returns the 401 error
with that text, not the internal-fault (500) error. -/
theorem errorHandler_missing_credentials_is_401 :
    (errorHandler sampleResultCodeMap emptyRequest
        (errorsNew (bytes "missing credentials")) none).2
      = some (.fiber (fiberNewError 401 (bytes "missing credentials")))
    ∧ (errorHandler sampleResultCodeMap emptyRequest
        (errorsNew (bytes "missing credentials")) none).2
      ≠ some (.fiber ErrInternalServerError) := by
  decide

/-- C2 (amended): for every raw error that is not an LDAP error, the classified error
is the 401 error whose message is the raw error's text; `errorHandler` passes it to the
error callback when one is configured and returns it when none is. -/
theorem errorHandler_not_ldap (resultCodeMap : Nat → Option GoString) (c : Ctx)
    (err : GoError) (cb : Option ErrorHandlerCallback)
    (hnot : ∀ e, err ≠ .ldap e) :
    errorHandler resultCodeMap c err cb
      = match cb with
        | some f =>
          ([.errorCallback (.fiber (fiberNewError 401 err.Error))],
            f c (.fiber (fiberNewError 401 err.Error)))
        | none => ([], some (.fiber (fiberNewError 401 err.Error))) := by
  cases err with
  | ldap e => exact absurd rfl (hnot e)
  | fiber e => cases cb <;> rfl
  | other text => cases cb <;> rfl

/-- With a callback that replaces every error by `nil`, the callback receives the 401
error "missing credentials" and its result is what `errorHandler` returns. -/
theorem errorHandler_not_ldap_witness :
    errorHandler sampleResultCodeMap emptyRequest (errorsNew (bytes "missing credentials"))
        (some fun _ _ => none)
      = ([.errorCallback (.fiber (fiberNewError 401 (bytes "missing credentials")))], none) :=
  errorHandler_not_ldap sampleResultCodeMap emptyRequest
    (errorsNew (bytes "missing credentials")) (some fun _ _ => none)
    (fun e h => by cases h)

/-! ## The credential extractor -/

/-- C9: when the query string holds non-empty values for both fields,
`defaultCredentialsLookup` returns that pair with no error, whatever the body and the
headers are; the body parser's result is not consulted. -/
theorem defaultCredentialsLookup_query (c : Ctx) (usernameField passwordField : GoString)
    (hu : c.Query usernameField ≠ []) (hp : c.Query passwordField ≠ []) :
    defaultCredentialsLookup c usernameField passwordField
      = .ret (c.Query usernameField, c.Query passwordField, none) := by
  simp [defaultCredentialsLookup, hu, hp]

/-- The query pair wins over an unparsable body and over an `Authorization` header. -/
theorem defaultCredentialsLookup_query_witness :
    defaultCredentialsLookup
        { queryRequest with
          Body := some (bytes "\x7b"),
          BodyParser := .error (.fiber (fiberNewError 422 (bytes "Unprocessable Entity"))),
          GetReqHeaders := fun _ => some (bytes "QmFzaWM=") }
        (bytes "username") (bytes "password")
      = .ret (bytes "tesla", bytes "password", none) :=
  defaultCredentialsLookup_query _ (bytes "username") (bytes "password")
    (by decide) (by decide)

/-- C6 (the code at the failing input): the `Authorization` header `QmFzaWM=` decodes to
exactly `Basic`, five bytes, and `defaultCredentialsLookup` panics on `authDec[6:]`
where the claim has it return the `missing credentials` error. -/
theorem defaultCredentialsLookup_panics_on_short_basic :
    base64Decode (bytes "QmFzaWM=") = some (bytes "Basic")
    ∧ defaultCredentialsLookup (authorizationRequest (bytes "QmFzaWM="))
        (bytes "username") (bytes "password")
      = .panic (.sliceBoundsOutOfRange 6 5) := by
  decide

/-! ## The handler -/

/-- C4: when `Next` is set and returns true, the run consists of the call of `Next` and
of `c.Next()`, whose result it returns: no dial, StartTLS, bind or search, no credentials
lookup, no success or error callback, whatever the directory and the configured
credentials are. -/
theorem New_skips_when_Next_true {σ : Type} (L : LdapClient σ)
    (resultCodeMap : Nat → Option GoString) (config : Config) (c : Ctx)
    (next : Ctx → Bool) (hnext : config.Next = some next) (htrue : next c = true) :
    New L resultCodeMap config c = ⟨[.skipPredicate, .ctxNext], .ret c.Next⟩
      ∧ ∀ ev ∈ (New L resultCodeMap config c).trace, ev.isDirectoryOp = false := by
  have hrun : New L resultCodeMap config c = ⟨[.skipPredicate, .ctxNext], .ret c.Next⟩ := by
    simp [New, handler, configDefault_Next, hnext, htrue]
  refine ⟨hrun, ?_⟩
  rw [hrun]
  intro ev hmem
  simp only [List.mem_cons, List.mem_singleton] at hmem
  rcases hmem with h | h | h
  · subst h; rfl
  · subst h; rfl
  · cases h

/-- With wrong service credentials and a `Next` that skips every request, the run never
reaches the directory. -/
theorem New_skips_when_Next_true_witness :
    New sampleDirectory sampleResultCodeMap
        { sampleConfig with Next := some fun _ => true, BindCredentials := bytes "wrong" }
        queryRequest
      = ⟨[.skipPredicate, .ctxNext], .ret none⟩ :=
  (New_skips_when_Next_true sampleDirectory sampleResultCodeMap _ queryRequest
    (fun _ => true) rfl rfl).1

/-- C7 (the code at the failing input): with `SearchBase` empty and `SearchFilter` set,
after the service bind the handler calls the credentials lookup, searches (from the
empty base) and binds as the entry found, where the claim has it skip that phase. -/
theorem New_searches_with_empty_SearchBase :
    New sampleDirectory sampleResultCodeMap { sampleConfig with SearchBase := [] } queryRequest
      = ⟨[.dialURL (bytes "ldap://ldap.forumsys.com:389"),
          .bind (bytes "cn=read-only-admin,dc=example,dc=com") (bytes "password"),
          .credentialsLookup (bytes "username") (bytes "password"),
          .search (NewSearchRequest [] ScopeWholeSubtree NeverDerefAliases 0 0 false
            (bytes "(uid=tesla)") (some [bytes "dn", bytes "dc"]) none),
          .bind (bytes "uid=tesla,dc=example,dc=com") (bytes "password"),
          .successCallback, .close],
        .ret none⟩ := by
  decide

/-- C1 (the code at the failing input): with the default lookup and the `Authorization`
header `QmFzaWM=`, after a successful dial and service bind the run panics in the
credentials lookup; it returns neither the result of the success callback nor that of
`errorHandler`. -/
theorem New_panics_on_short_basic :
    New sampleDirectory sampleResultCodeMap sampleConfig
        (authorizationRequest (bytes "QmFzaWM="))
      = ⟨[.dialURL (bytes "ldap://ldap.forumsys.com:389"),
          .bind (bytes "cn=read-only-admin,dc=example,dc=com") (bytes "password"),
          .credentialsLookup (bytes "username") (bytes "password"),
          .close],
        .panic (.sliceBoundsOutOfRange 6 5)⟩ := by
  decide

/-! ## Base64 round trip -/

theorem b64Value_b64Char_all : ∀ n < 64, b64Value (b64Char n) = some n := by decide
theorem b64Char_ne_all : ∀ n < 64, b64Char n ≠ 61 ∧ b64Char n ≠ 10 ∧ b64Char n ≠ 13 := by decide

theorem b64Value_b64Char (n : Nat) : b64Value (b64Char (n % 64)) = some (n % 64) :=
  b64Value_b64Char_all _ (Nat.mod_lt _ (by decide))

theorem b64Char_ne_pad (n : Nat) : b64Char (n % 64) ≠ b64Pad :=
  (b64Char_ne_all _ (Nat.mod_lt _ (by decide))).1

theorem b64Char_keep (n : Nat) :
    (decide (b64Char (n % 64) ≠ 10 ∧ b64Char (n % 64) ≠ 13)) = true := by
  have h := b64Char_ne_all _ (Nat.mod_lt n (by decide : 0 < 64))
  simp [h.2.1, h.2.2]

theorem ofNat_eq_of_mod {n : Nat} {a : UInt8} (h : n % 256 = a.toNat) : UInt8.ofNat n = a := by
  apply UInt8.ext
  rw [← h]
  simp [UInt8.ofNat, UInt8.toNat]

theorem quantumVal_sextets (val : Nat) (h : val < 16777216) :
    quantumVal (val / 262144 % 64) (val / 4096 % 64) (val / 64 % 64) (val % 64) = val := by
  simp only [quantumVal]; omega

theorem quantumVal_sextets_two (val : Nat) (h : val < 16777216) (h0 : val % 256 = 0) :
    quantumVal (val / 262144 % 64) (val / 4096 % 64) (val / 64 % 64) 0 / 256 = val / 256 := by
  simp only [quantumVal]; omega

theorem quantumVal_sextets_one (val : Nat) (h : val < 16777216) (h0 : val % 65536 = 0) :
    quantumVal (val / 262144 % 64) (val / 4096 % 64) 0 0 / 65536 = val / 65536 := by
  simp only [quantumVal]; omega

theorem filter_base64Encode (s : GoString) :
    (base64Encode s).filter (fun c => c ≠ 10 ∧ c ≠ 13) = base64Encode s := by
  induction s using base64Encode.induct with
  | case1 a b c rest ih =>
    simp only [base64Encode, List.filter_cons, b64Char_keep, if_true, ih]
  | case2 a b =>
    simp only [base64Encode, List.filter_cons, b64Char_keep, if_true, List.filter_nil]
    simp [b64Pad]
  | case3 a =>
    simp only [base64Encode, List.filter_cons, b64Char_keep, if_true, List.filter_nil]
    simp [b64Pad]
  | case4 => rfl

theorem decodeQuanta_base64Encode (s : GoString) : decodeQuanta (base64Encode s) = some s := by
  induction s using base64Encode.induct with
  | case1 a b c rest ih =>
    have ha := a.toNat_lt
    have hb := b.toNat_lt
    have hc := c.toNat_lt
    simp only [base64Encode, decodeQuanta, b64Value_b64Char, b64Char_ne_pad, if_false, ih]
    rw [quantumVal_sextets _ (by omega)]
    rw [ofNat_eq_of_mod (a := a) (by omega), ofNat_eq_of_mod (a := b) (by omega),
      ofNat_eq_of_mod (a := c) (by omega)]
  | case2 a b =>
    have ha := a.toNat_lt
    have hb := b.toNat_lt
    simp only [base64Encode, decodeQuanta, b64Value_b64Char, b64Char_ne_pad, if_false, if_true]
    rw [quantumVal_sextets_two _ (by omega) (by omega)]
    rw [ofNat_eq_of_mod (a := a) (by simp only [quantumVal]; omega),
      ofNat_eq_of_mod (a := b) (by omega)]
  | case3 a =>
    have ha := a.toNat_lt
    simp only [base64Encode, decodeQuanta, b64Value_b64Char, b64Char_ne_pad, if_false, if_true,
      and_self]
    rw [quantumVal_sextets_one _ (by omega) (by omega)]
    rw [ofNat_eq_of_mod (a := a) (by omega)]
  | case4 => rfl

theorem base64Decode_base64Encode (s : GoString) : base64Decode (base64Encode s) = some s := by
  rw [base64Decode, filter_base64Encode, decodeQuanta_base64Encode]

theorem base64Encode_ne_nil (b : UInt8) (s : GoString) : base64Encode (b :: s) ≠ [] := by
  match s with
  | [] => simp [base64Encode]
  | [_] => simp [base64Encode]
  | _ :: _ :: _ => simp [base64Encode]

/-! ## Splitting on the separator -/

theorem stringsSplit_of_not_mem (sep : UInt8) (p : GoString) (hp : sep ∉ p) :
    stringsSplit sep p = [p] := by
  induction p with
  | nil => rfl
  | cons b rest ih =>
    have hb : b ≠ sep := fun h => hp (by simp [h])
    have hrest : sep ∉ rest := fun h => hp (by simp [h])
    simp [stringsSplit, hb, ih hrest]

theorem stringsSplit_pair (sep : UInt8) (u p : GoString) (hu : sep ∉ u) (hp : sep ∉ p) :
    stringsSplit sep (u ++ sep :: p) = [u, p] := by
  induction u with
  | nil => simp [stringsSplit, stringsSplit_of_not_mem sep p hp]
  | cons b rest ih =>
    have hb : b ≠ sep := fun h => hu (by simp [h])
    have hrest : sep ∉ rest := fun h => hu (by simp [h])
    simp [stringsSplit, hb, ih hrest]

theorem bytes_Basic_space : bytes "Basic " = [66, 97, 115, 105, 99, 32] := by decide

theorem bytes_Basic : bytes "Basic" = [66, 97, 115, 105, 99] := by decide

/-- Basic-credential round trip on a request whose `c.Body()` is nil. For a username `u`
and a password `p` without a `:` byte, on a request whose query does not hold both
credentials, whose `c.Body()` is nil and which does not hold both named headers, and
whose `Authorization` header is the standard base64 encoding of `Basic `, `u`, `:` and
`p`, `defaultCredentialsLookup` returns `(u, p)` with no error. -/
theorem defaultCredentialsLookup_basic_roundtrip (c : Ctx)
    (usernameField passwordField u p : GoString)
    (hu : (58 : UInt8) ∉ u) (hp : (58 : UInt8) ∉ p)
    (hquery : ¬ (c.Query usernameField ≠ [] ∧ c.Query passwordField ≠ []))
    (hbody : c.Body = none)
    (hheaders : ¬ ((c.GetReqHeaders usernameField).isSome
      ∧ (c.GetReqHeaders passwordField).isSome))
    (hauth : c.GetReqHeaders (bytes "Authorization")
      = some (base64Encode (bytes "Basic " ++ u ++ 58 :: p))) :
    defaultCredentialsLookup c usernameField passwordField = .ret (u, p, none) := by
  have hlookup : lookupAuthorization c.GetReqHeaders = .ret (u, p, none) := by
    have hne : base64Encode (bytes "Basic " ++ u ++ 58 :: p) ≠ [] := by
      rw [bytes_Basic_space]; exact base64Encode_ne_nil _ _
    have hcontains : stringsContains (bytes "Basic " ++ u ++ 58 :: p) (bytes "Basic") = true := by
      rw [bytes_Basic_space, bytes_Basic]
      simp [stringsContains, List.isPrefixOf]
    have hlen : 6 ≤ (bytes "Basic " ++ u ++ 58 :: p).length := by
      rw [bytes_Basic_space]; simp
    have hdrop : (bytes "Basic " ++ u ++ 58 :: p).drop 6 = u ++ 58 :: p := by
      rw [bytes_Basic_space]; simp
    simp only [lookupAuthorization, hauth, base64Decode_base64Encode]
    rw [if_pos hne, if_pos hcontains, if_pos hlen, hdrop, stringsSplit_pair 58 u p hu hp]
  have hheaders2 : lookupHeaders c usernameField passwordField = .ret (u, p, none) := by
    simp only [lookupHeaders]
    split
    · rename_i h1 h2
      simp [h1, h2] at hheaders
    · exact hlookup
  unfold defaultCredentialsLookup
  simp only [hbody]
  rw [if_neg hquery]
  exact hheaders2

/-- The request of `TestBasicAuth`: `Authorization` is the encoding of
`Basic tesla:password`. -/
theorem defaultCredentialsLookup_basic_roundtrip_witness :
    defaultCredentialsLookup
        (authorizationRequest (base64Encode (bytes "Basic " ++ bytes "tesla" ++ 58 :: bytes "password")))
        (bytes "username") (bytes "password")
      = .ret (bytes "tesla", bytes "password", none) :=
  defaultCredentialsLookup_basic_roundtrip _ (bytes "username") (bytes "password")
    (bytes "tesla") (bytes "password") (by decide) (by decide) (by decide) rfl (by decide) rfl

/-- C10 (the code at the failing input): a request without a body whose `c.Body()` is an
empty slice that is not nil, so that the body parser is run and fails with 422
"Unprocessable Entity", and whose `Authorization` header is the encoding of
`Basic tesla:password`. `defaultCredentialsLookup` returns the parser's error and
never reads the header, where the claim has it return `(tesla, password)`; with
`c.Body()` nil the same request gives the pair. -/
theorem defaultCredentialsLookup_empty_body_unprocessable :
    defaultCredentialsLookup
        { authorizationRequest (base64Encode (bytes "Basic tesla:password")) with
          Body := some [],
          BodyParser := .error (.fiber (fiberNewError 422 (bytes "Unprocessable Entity"))) }
        (bytes "username") (bytes "password")
      = .ret ([], [], some (.fiber (fiberNewError 422 (bytes "Unprocessable Entity"))))
    ∧ defaultCredentialsLookup
        { authorizationRequest (base64Encode (bytes "Basic tesla:password")) with
          Body := none,
          BodyParser := .error (.fiber (fiberNewError 422 (bytes "Unprocessable Entity"))) }
        (bytes "username") (bytes "password")
      = .ret (bytes "tesla", bytes "password", none) := by
  decide

/-! ## A failing service bind -/

theorem serviceBind_configDefault {σ : Type} (L : LdapClient σ) (config : Config) (l : σ) :
    serviceBind L (configDefault [config]) l = serviceBind L config l := by
  simp only [serviceBind, configDefault_BindDN, configDefault_BindCredentials]

theorem skipTrace_configDefault (config : Config) :
    skipTrace (configDefault [config]) = skipTrace config := by
  simp only [skipTrace, configDefault_Next]

theorem tlsTrace_configDefault (config : Config) :
    tlsTrace (configDefault [config]) = tlsTrace config := by
  simp only [tlsTrace, configDefault_TLSConfig]

theorem stateAtBind_configDefault {σ : Type} (L : LdapClient σ) (config : Config) (l : σ) :
    stateAtBind L (configDefault [config]) l = stateAtBind L config l := by
  simp only [stateAtBind, configDefault_TLSConfig]

/-- The run of the handler when the dial and StartTLS succeed and the service bind
fails. -/
theorem handler_serviceBind_error {σ : Type} (L : LdapClient σ)
    (resultCodeMap : Nat → Option GoString) (cfg : Config) (c : Ctx) (l0 : σ) (err : GoError)
    (hskip : ∀ next, cfg.Next = some next → next c = false)
    (hdial : L.DialURL cfg.URL = .ok l0)
    (htls : ∀ tlsConfig, cfg.TLSConfig = some tlsConfig → (L.StartTLS l0 tlsConfig).1 = none)
    (hbind : (serviceBind L cfg (stateAtBind L cfg l0)).2.1 = some err) :
    handler L resultCodeMap cfg c
      = ⟨skipTrace cfg ++ [.dialURL cfg.URL] ++ tlsTrace cfg
            ++ [(serviceBind L cfg (stateAtBind L cfg l0)).1]
            ++ (errorHandler resultCodeMap c err cfg.ErrorCallback).1 ++ [.close],
          .ret (errorHandler resultCodeMap c err cfg.ErrorCallback).2⟩ := by
  have hbs : ∀ l, (serviceBind L cfg l).2.1 = some err →
      bindAndSearch L resultCodeMap cfg c l
        = ⟨(serviceBind L cfg l).1 :: (errorHandler resultCodeMap c err cfg.ErrorCallback).1,
            .ret (errorHandler resultCodeMap c err cfg.ErrorCallback).2⟩ := by
    intro l hl
    unfold bindAndSearch
    rcases hsb : serviceBind L cfg l with ⟨ev, e, l2⟩
    rw [hsb] at hl
    simp only at hl
    subst hl
    simp [Run.after, returnError]
  have hsess : session L resultCodeMap cfg c l0
      = ⟨tlsTrace cfg ++ (serviceBind L cfg (stateAtBind L cfg l0)).1
            :: (errorHandler resultCodeMap c err cfg.ErrorCallback).1,
          .ret (errorHandler resultCodeMap c err cfg.ErrorCallback).2⟩ := by
    unfold session
    cases ht : cfg.TLSConfig with
    | none =>
      simp only [stateAtBind, ht] at hbind
      simp [tlsTrace, stateAtBind, ht, hbs l0 hbind]
    | some tlsConfig =>
      have h1 := htls tlsConfig ht
      simp only [stateAtBind, ht] at hbind
      rcases hst : L.StartTLS l0 tlsConfig with ⟨e, l1⟩
      rw [hst] at h1 hbind
      simp only at h1 hbind
      subst h1
      simp [tlsTrace, stateAtBind, ht, hst, hbs l1 hbind, Run.after]
  have hconn : connect L resultCodeMap cfg c
      = ⟨[.dialURL cfg.URL] ++ tlsTrace cfg
            ++ [(serviceBind L cfg (stateAtBind L cfg l0)).1]
            ++ (errorHandler resultCodeMap c err cfg.ErrorCallback).1 ++ [.close],
          .ret (errorHandler resultCodeMap c err cfg.ErrorCallback).2⟩ := by
    simp [connect, hdial, hsess, Run.after]
  unfold handler
  cases hn : cfg.Next with
  | none => simp [skipTrace, hn, hconn]
  | some next => simp [skipTrace, hn, hskip next hn, hconn, Run.after]

/-- C3: when the request is not skipped, the dial and StartTLS (if configured) succeed
and the service bind fails with `err`, the handler returns the result of `errorHandler`
on `err`; its calls are the skip predicate (if configured), the dial, StartTLS (if
configured), the service bind, the error callback (if configured) and the close: no
credentials lookup, no search, no second bind, no success callback. Nothing in the run
depends on the request's credentials. -/
theorem New_serviceBind_error {σ : Type} (L : LdapClient σ)
    (resultCodeMap : Nat → Option GoString) (config : Config) (c : Ctx) (l0 : σ)
    (err : GoError)
    (hskip : ∀ next, config.Next = some next → next c = false)
    (hdial : L.DialURL config.URL = .ok l0)
    (htls : ∀ tlsConfig, config.TLSConfig = some tlsConfig
      → (L.StartTLS l0 tlsConfig).1 = none)
    (hbind : (serviceBind L config (stateAtBind L config l0)).2.1 = some err) :
    New L resultCodeMap config c
        = ⟨skipTrace config ++ [.dialURL config.URL] ++ tlsTrace config
              ++ [(serviceBind L config (stateAtBind L config l0)).1]
              ++ (errorHandler resultCodeMap c err config.ErrorCallback).1 ++ [.close],
            .ret (errorHandler resultCodeMap c err config.ErrorCallback).2⟩
      ∧ (∀ ev ∈ (New L resultCodeMap config c).trace,
          ev.isCredentialsLookup = false ∧ ev.isSearch = false ∧ ev ≠ .successCallback)
      ∧ ((New L resultCodeMap config c).trace.filter Event.isBind).length = 1 := by
  have hrun : New L resultCodeMap config c
      = ⟨skipTrace config ++ [.dialURL config.URL] ++ tlsTrace config
            ++ [(serviceBind L config (stateAtBind L config l0)).1]
            ++ (errorHandler resultCodeMap c err config.ErrorCallback).1 ++ [.close],
          .ret (errorHandler resultCodeMap c err config.ErrorCallback).2⟩ := by
    have h := handler_serviceBind_error L resultCodeMap (configDefault [config]) c l0 err
      (by simpa only [configDefault_Next] using hskip)
      (by simpa only [configDefault_URL] using hdial)
      (by simpa only [configDefault_TLSConfig] using htls)
      (by simpa only [serviceBind_configDefault, stateAtBind_configDefault] using hbind)
    simpa only [New, skipTrace_configDefault, tlsTrace_configDefault, configDefault_URL,
      serviceBind_configDefault, stateAtBind_configDefault, configDefault_ErrorCallback]
      using h
  have hev : (serviceBind L config (stateAtBind L config l0)).1.isBind = true
      ∧ (serviceBind L config (stateAtBind L config l0)).1.isSearch = false
      ∧ (serviceBind L config (stateAtBind L config l0)).1.isCredentialsLookup = false
      ∧ (serviceBind L config (stateAtBind L config l0)).1 ≠ .successCallback := by
    unfold serviceBind
    split <;> simp [Event.isBind, Event.isSearch, Event.isCredentialsLookup]
  refine ⟨hrun, ?_, ?_⟩
  · rw [hrun]
    intro ev hmem
    simp only [List.mem_append, List.mem_singleton] at hmem
    rcases hmem with ((((h | h) | h) | h) | h) | h
    · unfold skipTrace at h
      split at h <;> simp at h
      subst h; simp [Event.isSearch, Event.isCredentialsLookup]
    · subst h; simp [Event.isSearch, Event.isCredentialsLookup]
    · unfold tlsTrace at h
      split at h <;> simp at h
      subst h; simp [Event.isSearch, Event.isCredentialsLookup]
    · subst h; exact ⟨hev.2.2.1, hev.2.1, hev.2.2.2⟩
    · unfold errorHandler at h
      split at h <;> simp at h
      subst h; simp [Event.isSearch, Event.isCredentialsLookup]
    · subst h; simp [Event.isSearch, Event.isCredentialsLookup]
  · rw [hrun]
    have h1 : (skipTrace config).filter Event.isBind = [] := by
      unfold skipTrace; split <;> simp [Event.isBind]
    have h2 : (tlsTrace config).filter Event.isBind = [] := by
      unfold tlsTrace; split <;> simp [Event.isBind]
    have h3 : (errorHandler resultCodeMap c err config.ErrorCallback).1.filter Event.isBind
        = [] := by
      unfold errorHandler; split <;> simp [Event.isBind]
    simp only [List.filter_append, h1, h2, h3, List.filter_cons, hev.1, if_true,
      List.filter_nil, List.nil_append, List.append_nil]
    simp [Event.isBind]

/-- The request of `TestWrongBindCredentials`: the service password is wrong, the
user's credentials are right, and the run ends at the service bind with a 401. -/
theorem New_serviceBind_error_witness :
    New sampleDirectory sampleResultCodeMap
        { sampleConfig with BindCredentials := bytes "wrongpassword" } queryRequest
      = ⟨[.dialURL (bytes "ldap://ldap.forumsys.com:389"),
          .bind (bytes "cn=read-only-admin,dc=example,dc=com") (bytes "wrongpassword"),
          .close],
        .ret (some (.fiber (fiberNewError 401
          (bytes "LDAP Result Code 49 \"Invalid Credentials\": "))))⟩ :=
  (New_serviceBind_error sampleDirectory sampleResultCodeMap
    { sampleConfig with BindCredentials := bytes "wrongpassword" } queryRequest ()
    invalidCredentials (fun _ h => by cases h) rfl (fun _ h => by cases h)
    (by decide)).1

/-! ## One session, closed once -/

theorem returnError_trace (resultCodeMap : Nat → Option GoString) (cfg : Config) (c : Ctx)
    (err : GoError) :
    ∀ ev ∈ (returnError resultCodeMap cfg c err).trace, ev.isDial = false ∧ ev ≠ .close := by
  intro ev hmem
  simp only [returnError, errorHandler] at hmem
  split at hmem <;> simp at hmem
  subst hmem; simp [Event.isDial]

theorem continueStack_trace (cfg : Config) (c : Ctx) :
    ∀ ev ∈ (continueStack cfg c).trace, ev.isDial = false ∧ ev ≠ .close := by
  intro ev hmem
  simp only [continueStack] at hmem
  split at hmem <;> simp at hmem
  subst hmem; simp [Event.isDial]

theorem after_trace (evs : List Event) (r : Run)
    (hevs : ∀ ev ∈ evs, ev.isDial = false ∧ ev ≠ .close)
    (hr : ∀ ev ∈ r.trace, ev.isDial = false ∧ ev ≠ .close) :
    ∀ ev ∈ (Run.after evs r).trace, ev.isDial = false ∧ ev ≠ .close := by
  intro ev hmem
  simp only [Run.after, List.mem_append] at hmem
  rcases hmem with h | h
  · exact hevs ev h
  · exact hr ev h

theorem searchUser_trace {σ : Type} (L : LdapClient σ) (resultCodeMap : Nat → Option GoString)
    (cfg : Config) (c : Ctx) (l : σ) :
    ∀ ev ∈ (searchUser L resultCodeMap cfg c l).trace, ev.isDial = false ∧ ev ≠ .close := by
  unfold searchUser
  split
  · split
    · simp
    · apply after_trace
      · simp [Event.isDial]
      · split
        · simp
        · exact returnError_trace _ _ _ _
        · apply after_trace
          · simp [Event.isDial]
          · split
            · exact returnError_trace _ _ _ _
            · split
              · apply after_trace
                · simp [Event.isDial]
                · split
                  · exact returnError_trace _ _ _ _
                  · exact continueStack_trace _ _
              · exact returnError_trace _ _ _ _
  · exact continueStack_trace _ _

theorem bindAndSearch_trace {σ : Type} (L : LdapClient σ)
    (resultCodeMap : Nat → Option GoString) (cfg : Config) (c : Ctx) (l : σ) :
    ∀ ev ∈ (bindAndSearch L resultCodeMap cfg c l).trace, ev.isDial = false ∧ ev ≠ .close := by
  have hev : (serviceBind L cfg l).1.isDial = false ∧ (serviceBind L cfg l).1 ≠ .close := by
    unfold serviceBind
    split <;> simp [Event.isDial]
  unfold bindAndSearch
  split
  · rename_i ev err l2 heq
    rw [heq] at hev
    apply after_trace
    · simpa using hev
    · exact returnError_trace _ _ _ _
  · rename_i ev l2 heq
    rw [heq] at hev
    apply after_trace
    · simpa using hev
    · exact searchUser_trace _ _ _ _ _

theorem session_trace {σ : Type} (L : LdapClient σ) (resultCodeMap : Nat → Option GoString)
    (cfg : Config) (c : Ctx) (l : σ) :
    ∀ ev ∈ (session L resultCodeMap cfg c l).trace, ev.isDial = false ∧ ev ≠ .close := by
  unfold session
  split
  · apply after_trace
    · simp [Event.isDial]
    · split
      · exact returnError_trace _ _ _ _
      · exact bindAndSearch_trace _ _ _ _ _
  · exact bindAndSearch_trace _ _ _ _ _

theorem filter_isDial_eq_nil (evs : List Event)
    (h : ∀ ev ∈ evs, ev.isDial = false ∧ ev ≠ .close) : evs.filter Event.isDial = [] := by
  rw [List.filter_eq_nil_iff]
  intro ev hmem
  simp [(h ev hmem).1]

theorem skipTrace_trace (cfg : Config) :
    ∀ ev ∈ skipTrace cfg, ev.isDial = false ∧ ev ≠ .close := by
  intro ev hmem
  unfold skipTrace at hmem
  split at hmem <;> simp at hmem
  subst hmem; simp [Event.isDial]

/-- The trace of the handler: skipped, or the dial followed by the error path when the
dial fails, by the session and the close when it succeeds. -/
theorem handler_trace {σ : Type} (L : LdapClient σ) (resultCodeMap : Nat → Option GoString)
    (cfg : Config) (c : Ctx) :
    (handler L resultCodeMap cfg c).trace = [.skipPredicate, .ctxNext]
    ∨ (∃ err, L.DialURL cfg.URL = .error err
        ∧ (handler L resultCodeMap cfg c).trace
          = skipTrace cfg ++ .dialURL cfg.URL :: (returnError resultCodeMap cfg c err).trace)
    ∨ (∃ l, L.DialURL cfg.URL = .ok l
        ∧ (handler L resultCodeMap cfg c).trace
          = (skipTrace cfg ++ .dialURL cfg.URL :: (session L resultCodeMap cfg c l).trace)
            ++ [.close]) := by
  have hconn : (∃ err, L.DialURL cfg.URL = .error err
        ∧ (connect L resultCodeMap cfg c).trace
          = .dialURL cfg.URL :: (returnError resultCodeMap cfg c err).trace)
      ∨ (∃ l, L.DialURL cfg.URL = .ok l
        ∧ (connect L resultCodeMap cfg c).trace
          = .dialURL cfg.URL :: (session L resultCodeMap cfg c l).trace ++ [.close]) := by
    unfold connect
    cases hd : L.DialURL cfg.URL with
    | error err => exact Or.inl ⟨err, rfl, by simp [Run.after]⟩
    | ok l => exact Or.inr ⟨l, rfl, by simp [Run.after]⟩
  unfold handler
  cases hn : cfg.Next with
  | none =>
    right
    rcases hconn with ⟨err, hd, ht⟩ | ⟨l, hd, ht⟩
    · exact Or.inl ⟨err, hd, by simp [skipTrace, hn, ht]⟩
    · exact Or.inr ⟨l, hd, by simp [skipTrace, hn, ht]⟩
  | some next =>
    by_cases hc : next c = true
    · left; simp [hc]
    · right
      rcases hconn with ⟨err, hd, ht⟩ | ⟨l, hd, ht⟩
      · exact Or.inl ⟨err, hd, by simp [skipTrace, hn, hc, ht, Run.after]⟩
      · exact Or.inr ⟨l, hd, by simp [skipTrace, hn, hc, ht, Run.after]⟩

/-- C5: a run of the handler dials at most once; when a dial of the run succeeded, the
run ends with the close of that session and holds no other close, so the session is
closed exactly once, after every other call of the run, on every path through the
handler (a panic of the body included). -/
theorem New_one_session_closed_once {σ : Type} (L : LdapClient σ)
    (resultCodeMap : Nat → Option GoString) (config : Config) (c : Ctx) :
    ((New L resultCodeMap config c).trace.filter Event.isDial).length ≤ 1
    ∧ (∀ url l, Event.dialURL url ∈ (New L resultCodeMap config c).trace
        → L.DialURL url = .ok l
        → ∃ pre, (New L resultCodeMap config c).trace = pre ++ [.close]
            ∧ Event.close ∉ pre) := by
  unfold New
  generalize configDefault [config] = cfg
  have hskip := skipTrace_trace cfg
  rcases handler_trace L resultCodeMap cfg c with ht | ⟨err, hd, ht⟩ | ⟨l, hd, ht⟩
  · rw [ht]
    refine ⟨by simp [Event.isDial], ?_⟩
    intro url l hmem
    simp at hmem
  · have hre := returnError_trace resultCodeMap cfg c err
    rw [ht]
    refine ⟨?_, ?_⟩
    · simp [List.filter_append, List.filter_cons, filter_isDial_eq_nil _ hskip,
        filter_isDial_eq_nil _ hre, Event.isDial]
    · intro url l hmem hok
      simp only [List.mem_append, List.mem_cons] at hmem
      rcases hmem with h | h | h
      · have := (hskip _ h).1
        simp [Event.isDial] at this
      · injection h with h
        rw [h, hd] at hok
        cases hok
      · have := (hre _ h).1
        simp [Event.isDial] at this
  · have hse := session_trace L resultCodeMap cfg c l
    rw [ht]
    refine ⟨?_, ?_⟩
    · simp [List.filter_append, List.filter_cons, filter_isDial_eq_nil _ hskip,
        filter_isDial_eq_nil _ hse, Event.isDial]
    · intro url l2 _ _
      refine ⟨_, rfl, ?_⟩
      intro hmem
      simp only [List.mem_append, List.mem_cons] at hmem
      rcases hmem with h | h | h
      · exact (hskip _ h).2 rfl
      · cases h
      · exact (hse _ h).2 rfl

/-- A run that fails at the user bind: one dial, and the close is the last call. -/
theorem New_one_session_closed_once_witness :
    ∃ pre, (New sampleDirectory sampleResultCodeMap sampleConfig
        (authorizationRequest (base64Encode (bytes "Basic tesla:wrong")))).trace
      = pre ++ [.close] ∧ Event.close ∉ pre :=
  (New_one_session_closed_once sampleDirectory sampleResultCodeMap sampleConfig
    (authorizationRequest (base64Encode (bytes "Basic tesla:wrong")))).2
    (bytes "ldap://ldap.forumsys.com:389") () (by decide) rfl

/-! ## The verdict of a run whose credentials lookup returns -/

theorem returnError_returnsError (resultCodeMap : Nat → Option GoString) (cfg : Config)
    (c : Ctx) (err : GoError) :
    returnsError resultCodeMap cfg c (returnError resultCodeMap cfg c err) := by
  refine ⟨⟨err, rfl⟩, ?_⟩
  intro hmem
  simp only [returnError, errorHandler] at hmem
  split at hmem <;> simp at hmem

theorem continueStack_returnsSuccess (cfg : Config) (c : Ctx)
    (successCallback : Ctx → Option GoError) (hsc : cfg.SuccessCallback = some successCallback) :
    returnsSuccess cfg c (continueStack cfg c) := by
  simp [returnsSuccess, continueStack, hsc]

theorem after_returnsError (resultCodeMap : Nat → Option GoString) (cfg : Config) (c : Ctx)
    (evs : List Event) (r : Run) (hevs : Event.successCallback ∉ evs)
    (hr : returnsError resultCodeMap cfg c r) :
    returnsError resultCodeMap cfg c (Run.after evs r) := by
  refine ⟨hr.1, ?_⟩
  intro hmem
  simp only [Run.after, List.mem_append] at hmem
  rcases hmem with h | h
  · exact hevs h
  · exact hr.2 h

theorem after_returnsSuccess (cfg : Config) (c : Ctx) (evs : List Event) (r : Run)
    (hr : returnsSuccess cfg c r) : returnsSuccess cfg c (Run.after evs r) := by
  refine ⟨hr.1, ?_⟩
  simp only [Run.after, List.mem_append]
  exact Or.inr hr.2

/-- A run cannot both return an error without the success callback and return through
the success callback. -/
theorem not_returnsSuccess_of_returnsError (resultCodeMap : Nat → Option GoString)
    (cfg : Config) (c : Ctx) (r : Run) (h : returnsError resultCodeMap cfg c r) :
    ¬ returnsSuccess cfg c r :=
  fun hs => h.2 hs.2

theorem searchUser_verdict {σ : Type} (L : LdapClient σ)
    (resultCodeMap : Nat → Option GoString) (cfg : Config) (c : Ctx) (l : σ)
    (lookup : Ctx → GoString → GoString → Result Credentials)
    (successCallback : Ctx → Option GoError)
    (hlk : cfg.CredentialsLookup = some lookup)
    (hsc : cfg.SuccessCallback = some successCallback)
    (hret : ∀ p, lookup c cfg.UsernameField cfg.PasswordField ≠ .panic p) :
    (userVerified L cfg c l → returnsSuccess cfg c (searchUser L resultCodeMap cfg c l))
    ∧ (¬ userVerified L cfg c l
        → returnsError resultCodeMap cfg c (searchUser L resultCodeMap cfg c l)) := by
  have hsucc := continueStack_returnsSuccess cfg c successCallback hsc
  by_cases hguard : cfg.SearchBase ≠ [] ∨ cfg.SearchFilter ≠ []
  · have hboth : ¬ (cfg.SearchBase = [] ∧ cfg.SearchFilter = []) := by
      intro h; rcases hguard with h1 | h1
      · exact h1 h.1
      · exact h1 h.2
    simp only [searchUser, if_pos hguard, hlk]
    cases hl : lookup c cfg.UsernameField cfg.PasswordField with
    | panic p => exact absurd hl (hret p)
    | ret cred =>
      obtain ⟨username, password, oerr⟩ := cred
      cases oerr with
      | some err =>
        have hnot : ¬ userVerified L cfg c l := by
          rintro (h | ⟨lookup2, u, p, entry, l2, h1, h2, _, _⟩)
          · exact hboth h
          · rw [hlk] at h1; cases h1
            rw [hl] at h2; cases h2
        refine ⟨fun h => absurd h hnot, fun _ => ?_⟩
        exact after_returnsError _ _ _ _ _ (by simp) (returnError_returnsError _ _ _ _)
      | none =>
        rcases hs : L.Search l (userSearchRequest L cfg username) with ⟨sres, l2⟩
        cases sres with
        | error err =>
          have hnot : ¬ userVerified L cfg c l := by
            rintro (h | ⟨lookup2, u, p, entry, l3, h1, h2, h3, _⟩)
            · exact hboth h
            · rw [hlk] at h1; cases h1
              rw [hl] at h2; cases h2
              rw [hs] at h3; cases h3
          refine ⟨fun h => absurd h hnot, fun _ => ?_⟩
          simp only [hs]
          exact after_returnsError _ _ _ _ _ (by simp)
            (after_returnsError _ _ _ _ _ (by simp) (returnError_returnsError _ _ _ _))
        | ok res =>
          obtain ⟨entries⟩ := res
          match entries, hs with
          | [], hs =>
            have hnot : ¬ userVerified L cfg c l := by
              rintro (h | ⟨lookup2, u, p, entry, l3, h1, h2, h3, _⟩)
              · exact hboth h
              · rw [hlk] at h1; cases h1
                rw [hl] at h2; cases h2
                rw [hs] at h3; cases h3
            refine ⟨fun h => absurd h hnot, fun _ => ?_⟩
            simp only [hs]
            exact after_returnsError _ _ _ _ _ (by simp)
              (after_returnsError _ _ _ _ _ (by simp) (returnError_returnsError _ _ _ _))
          | _ :: _ :: _, hs =>
            have hnot : ¬ userVerified L cfg c l := by
              rintro (h | ⟨lookup2, u, p, entry, l3, h1, h2, h3, _⟩)
              · exact hboth h
              · rw [hlk] at h1; cases h1
                rw [hl] at h2; cases h2
                rw [hs] at h3; cases h3
            refine ⟨fun h => absurd h hnot, fun _ => ?_⟩
            simp only [hs]
            exact after_returnsError _ _ _ _ _ (by simp)
              (after_returnsError _ _ _ _ _ (by simp) (returnError_returnsError _ _ _ _))
          | [entry], hs =>
            simp only [hs]
            rcases hb : L.Bind l2 entry.DN password with ⟨berr, l3⟩
            cases berr with
            | some err =>
              have hnot : ¬ userVerified L cfg c l := by
                rintro (h | ⟨lookup2, u, p, entry2, l4, h1, h2, h3, h4⟩)
                · exact hboth h
                · rw [hlk] at h1; cases h1
                  rw [hl] at h2; cases h2
                  rw [hs] at h3; cases h3
                  rw [hb] at h4; cases h4
              refine ⟨fun h => absurd h hnot, fun _ => ?_⟩
              exact after_returnsError _ _ _ _ _ (by simp)
                (after_returnsError _ _ _ _ _ (by simp)
                  (after_returnsError _ _ _ _ _ (by simp) (returnError_returnsError _ _ _ _)))
            | none =>
              have hyes : userVerified L cfg c l :=
                Or.inr ⟨lookup, username, password, entry, l2, hlk, hl, hs, by rw [hb]⟩
              refine ⟨fun _ => ?_, fun h => absurd hyes h⟩
              exact after_returnsSuccess _ _ _ _
                (after_returnsSuccess _ _ _ _ (after_returnsSuccess _ _ _ _ hsucc))
  · have hboth : cfg.SearchBase = [] ∧ cfg.SearchFilter = [] := by
      constructor
      · by_contra h; exact hguard (Or.inl h)
      · by_contra h; exact hguard (Or.inr h)
    simp only [searchUser, if_neg hguard]
    exact ⟨fun _ => hsucc, fun h => absurd (Or.inl hboth) h⟩


theorem bindAndSearch_verdict {σ : Type} (L : LdapClient σ)
    (resultCodeMap : Nat → Option GoString) (cfg : Config) (c : Ctx) (l : σ)
    (lookup : Ctx → GoString → GoString → Result Credentials)
    (successCallback : Ctx → Option GoError)
    (hlk : cfg.CredentialsLookup = some lookup)
    (hsc : cfg.SuccessCallback = some successCallback)
    (hret : ∀ p, lookup c cfg.UsernameField cfg.PasswordField ≠ .panic p) :
    ((serviceBind L cfg l).2.1 = none ∧ userVerified L cfg c (serviceBind L cfg l).2.2
        → returnsSuccess cfg c (bindAndSearch L resultCodeMap cfg c l))
    ∧ (¬ ((serviceBind L cfg l).2.1 = none ∧ userVerified L cfg c (serviceBind L cfg l).2.2)
        → returnsError resultCodeMap cfg c (bindAndSearch L resultCodeMap cfg c l)) := by
  have hev : (serviceBind L cfg l).1 ≠ .successCallback := by
    unfold serviceBind
    split <;> simp
  unfold bindAndSearch
  rcases hsb : serviceBind L cfg l with ⟨ev, berr, l2⟩
  rw [hsb] at hev
  cases berr with
  | some err =>
    refine ⟨fun h => by simp at h, fun _ => ?_⟩
    exact after_returnsError _ _ _ _ _ (by simpa using hev.symm)
      (returnError_returnsError _ _ _ _)
  | none =>
    have hv := searchUser_verdict L resultCodeMap cfg c l2 lookup successCallback hlk hsc hret
    refine ⟨fun h => ?_, fun h => ?_⟩
    · exact after_returnsSuccess _ _ _ _ (hv.1 h.2)
    · exact after_returnsError _ _ _ _ _ (by simpa using hev.symm)
        (hv.2 (fun hu => h ⟨rfl, hu⟩))

theorem handler_verdict {σ : Type} (L : LdapClient σ)
    (resultCodeMap : Nat → Option GoString) (cfg : Config) (c : Ctx)
    (lookup : Ctx → GoString → GoString → Result Credentials)
    (successCallback : Ctx → Option GoError)
    (hskip : ∀ next, cfg.Next = some next → next c = false)
    (hlk : cfg.CredentialsLookup = some lookup)
    (hsc : cfg.SuccessCallback = some successCallback)
    (hret : ∀ p, lookup c cfg.UsernameField cfg.PasswordField ≠ .panic p) :
    (allStepsSucceed L cfg c → returnsSuccess cfg c (handler L resultCodeMap cfg c))
    ∧ (¬ allStepsSucceed L cfg c
        → returnsError resultCodeMap cfg c (handler L resultCodeMap cfg c)) := by
  have hconn : (allStepsSucceed L cfg c → returnsSuccess cfg c (connect L resultCodeMap cfg c))
      ∧ (¬ allStepsSucceed L cfg c
          → returnsError resultCodeMap cfg c (connect L resultCodeMap cfg c)) := by
    unfold connect
    cases hd : L.DialURL cfg.URL with
    | error err =>
      have hnot : ¬ allStepsSucceed L cfg c := by
        rintro ⟨l0, h0, _⟩
        rw [hd] at h0; cases h0
      refine ⟨fun h => absurd h hnot, fun _ => ?_⟩
      exact after_returnsError _ _ _ _ _ (by simp) (returnError_returnsError _ _ _ _)
    | ok l0 =>
      have hsess : ((∀ tlsConfig, cfg.TLSConfig = some tlsConfig
              → (L.StartTLS l0 tlsConfig).1 = none)
            ∧ (serviceBind L cfg (stateAtBind L cfg l0)).2.1 = none
            ∧ userVerified L cfg c (serviceBind L cfg (stateAtBind L cfg l0)).2.2
            → returnsSuccess cfg c (session L resultCodeMap cfg c l0))
          ∧ (¬ ((∀ tlsConfig, cfg.TLSConfig = some tlsConfig
              → (L.StartTLS l0 tlsConfig).1 = none)
            ∧ (serviceBind L cfg (stateAtBind L cfg l0)).2.1 = none
            ∧ userVerified L cfg c (serviceBind L cfg (stateAtBind L cfg l0)).2.2)
            → returnsError resultCodeMap cfg c (session L resultCodeMap cfg c l0)) := by
        unfold session stateAtBind
        cases ht : cfg.TLSConfig with
        | none =>
          have hb := bindAndSearch_verdict L resultCodeMap cfg c l0 lookup successCallback
            hlk hsc hret
          refine ⟨fun h => hb.1 h.2, fun h => hb.2 (fun hh => h ⟨?_, hh⟩)⟩
          intro t h; cases h
        | some tlsConfig =>
          rcases hst : L.StartTLS l0 tlsConfig with ⟨terr, l1⟩
          cases terr with
          | some err =>
            simp only [hst]
            refine ⟨fun h => ?_, fun _ => ?_⟩
            · have := h.1 tlsConfig rfl
              rw [hst] at this; cases this
            · exact after_returnsError _ _ _ _ _ (by simp) (returnError_returnsError _ _ _ _)
          | none =>
            have hb := bindAndSearch_verdict L resultCodeMap cfg c l1 lookup successCallback
              hlk hsc hret
            simp only [hst]
            refine ⟨fun h => ?_, fun h => ?_⟩
            · exact after_returnsSuccess _ _ _ _ (hb.1 h.2)
            · refine after_returnsError _ _ _ _ _ (by simp) (hb.2 (fun hh => h ⟨?_, hh⟩))
              intro t ht2
              cases ht2
              rw [hst]
      refine ⟨fun h => ?_, fun h => ?_⟩
      · obtain ⟨l0', h0, h1, h2, h3⟩ := h
        rw [hd] at h0; cases h0
        have hs := hsess.1 ⟨h1, h2, h3⟩
        refine after_returnsSuccess _ _ _ _ ⟨hs.1, ?_⟩
        simp only [List.mem_append]
        exact Or.inl hs.2
      · have hs := hsess.2 (fun hh => h ⟨l0, hd, hh.1, hh.2.1, hh.2.2⟩)
        refine after_returnsError _ _ _ _ _ (by simp) ⟨hs.1, ?_⟩
        simp only [List.mem_append, List.mem_singleton]
        rintro (h1 | h1)
        · exact hs.2 h1
        · cases h1
  unfold handler
  cases hn : cfg.Next with
  | none => exact hconn
  | some next =>
    simp only [hskip next hn]
    refine ⟨fun h => after_returnsSuccess _ _ _ _ (hconn.1 h), fun h => ?_⟩
    exact after_returnsError _ _ _ _ _ (by simp) (hconn.2 h)

/-- The verdict of the handler on a request that is not skipped and on which the
credentials lookup does not panic: it returns through the success callback when the
dial, StartTLS (if configured), the service bind and the verification of the user all
succeed, and it returns the result of `errorHandler`, without calling the success
callback, in every other case. -/
theorem New_verdict {σ : Type} (L : LdapClient σ) (resultCodeMap : Nat → Option GoString)
    (config : Config) (c : Ctx)
    (hskip : ∀ next, config.Next = some next → next c = false)
    (hret : ∀ p, (config.CredentialsLookup.getD defaultCredentialsLookup) c
      (configDefault [config]).UsernameField (configDefault [config]).PasswordField
        ≠ .panic p) :
    (allStepsSucceed L (configDefault [config]) c
        → returnsSuccess (configDefault [config]) c (New L resultCodeMap config c))
    ∧ (¬ allStepsSucceed L (configDefault [config]) c
        → returnsError resultCodeMap (configDefault [config]) c
            (New L resultCodeMap config c)) :=
  handler_verdict L resultCodeMap (configDefault [config]) c _ _
    (by simpa only [configDefault_Next] using hskip)
    (configDefault_CredentialsLookup config) (configDefault_SuccessCallback config) hret

/-- A wrong user password: the lookup returns, the user bind fails, and the run returns
an error without calling the success callback. -/
theorem New_verdict_witness :
    returnsError sampleResultCodeMap (configDefault [sampleConfig])
      (authorizationRequest (base64Encode (bytes "Basic tesla:wrong")))
      (New sampleDirectory sampleResultCodeMap sampleConfig
        (authorizationRequest (base64Encode (bytes "Basic tesla:wrong")))) :=
  (New_verdict sampleDirectory sampleResultCodeMap sampleConfig
    (authorizationRequest (base64Encode (bytes "Basic tesla:wrong")))
    (fun _ h => by cases h)
    (fun p h => by
      have hcomp : sampleConfig.CredentialsLookup.getD defaultCredentialsLookup
          (authorizationRequest (base64Encode (bytes "Basic tesla:wrong")))
          (configDefault [sampleConfig]).UsernameField
          (configDefault [sampleConfig]).PasswordField
          = .ret (bytes "tesla", bytes "wrong", none) := by decide
      rw [hcomp] at h
      cases h)).2
    (by
      rintro ⟨l0, _, _, _, h | ⟨lookup, u, p, entry, l2, h1, h2, h3, h4⟩⟩
      · exact absurd h.1 (by decide)
      · have hl : lookup = defaultCredentialsLookup := by
          have := configDefault_CredentialsLookup sampleConfig
          rw [h1] at this
          exact Option.some.inj this
        subst hl
        have h2' : defaultCredentialsLookup
            (authorizationRequest (base64Encode (bytes "Basic tesla:wrong")))
            (bytes "username") (bytes "password")
            = .ret (bytes "tesla", bytes "wrong", none) := by decide
        have hu : (configDefault [sampleConfig]).UsernameField = bytes "username" := by decide
        have hp : (configDefault [sampleConfig]).PasswordField = bytes "password" := by decide
        rw [hu, hp, h2'] at h2
        cases h2
        have hs : (sampleDirectory.Search ()
            (userSearchRequest sampleDirectory (configDefault [sampleConfig]) (bytes "tesla")))
            = (.ok ⟨[⟨bytes "uid=tesla,dc=example,dc=com"⟩]⟩, ()) := by rfl
        rw [hs] at h3
        cases h3
        exact absurd h4 (by decide))


/-- With both search fields empty the search phase is the success callback alone: no
credentials lookup, no search and no user bind. -/
theorem searchUser_of_both_empty {σ : Type} (L : LdapClient σ)
    (resultCodeMap : Nat → Option GoString) (cfg : Config) (c : Ctx) (l : σ)
    (hbase : cfg.SearchBase = []) (hfilter : cfg.SearchFilter = []) :
    searchUser L resultCodeMap cfg c l = continueStack cfg c := by
  simp [searchUser, hbase, hfilter]

/-- On an LDAP error `errorHandler` does not reach `mapLDAPToFiberError`: the type
assertion is on the `*fiber.Error` just assigned, so the classified error is the 401
error with the text of `Error()`, whatever the result code and the result code map. -/
theorem errorHandler_ldap (resultCodeMap : Nat → Option GoString) (c : Ctx) (e : LdapError) :
    errorHandler resultCodeMap c (.ldap e) none
      = ([], some (.fiber (fiberNewError 401 e.text))) := by
  rfl

end FiberLdapauth
